import Mathlib

/-!
Verification of the jsflare DNS-update core: the Cloudflare client
(request transport with retry, zone resolution, record update) and the
per-record update orchestrator with its fan-out runner, embedded from the
TypeScript sources.
-/

namespace JSflare

/-! ## Data model (CloudflareTypes.ts, config.ts, Config.ts) -/

/-- A Cloudflare zone as returned by the zones endpoint. -/
structure Zone where
  id : String
  name : String
  deriving DecidableEq

/-- A DNS record entry as returned by the dns_records endpoint.
`type` is optional (the TS type is "A" | "AAAA" | undefined, and the
orchestrator guards rec.type != null), `content` likewise (the orchestrator
checks record.content == null). -/
structure DnsRecord where
  id : String
  name : String
  type : Option String
  content : Option String
  ttl : Nat
  proxied : Bool
  deriving DecidableEq

/-- The per-record update task: the shared fields of TokenItem and
EmailKeyItem (Config.ts). Credentials are modelled separately in
`CloudflareOptions`. -/
structure Item where
  zone : String
  record : String
  ttl : Nat
  proxied : Bool
  deriving DecidableEq

/-- The constructor options of the Cloudflare class: optional apiToken,
optional apiEmail and apiKey, plus connectionOptions (maxRetries, timeout). -/
structure CloudflareOptions where
  apiToken : Option String
  apiEmail : Option String
  apiKey : Option String
  maxRetries : Nat
  timeout : Nat
  deriving DecidableEq

/-- The three authentication-relevant headers the constructor may set. -/
structure RequestHeaders where
  authorization : Option String
  xAuthEmail : Option String
  xAuthKey : Option String
  deriving DecidableEq

/-- The constructed client state: headers plus the stored timeoutMs and
maxRetries fields. -/
structure Client where
  headers : RequestHeaders
  timeoutMs : Nat
  maxRetries : Nat
  deriving DecidableEq

/-! ## Provider client construction (config.ts, fetch-based Cloudflare class) -/

/-- verifyOptions: (apiToken != null && apiToken.length > 0) ||
(apiEmail != null && apiKey != null && apiKey.length > 0 && apiEmail.length > 0). -/
def verifyOptions (options : CloudflareOptions) : Bool :=
  (match options.apiToken with
    | some t => decide (0 < t.length)
    | none => false)
  || (match options.apiEmail, options.apiKey with
    | some e, some k => decide (0 < k.length) && decide (0 < e.length)
    | _, _ => false)

/-- The constructor: throw when verifyOptions fails; otherwise set
Authorization when options.apiToken != null, else the X-Auth pair when both
email and key are present; store timeoutMs = connectionOptions.timeout * 60
and maxRetries. -/
def mkClient (options : CloudflareOptions) : Except String Client :=
  if verifyOptions options = false then
    .error ("Options invalid! Has to provide either apiToken, or apiEmail and cloudflareTypes")
  else
    let headers : RequestHeaders :=
      match options.apiToken with
      | some t => ⟨some (("Bearer ") ++ t), none, none⟩
      | none =>
        match options.apiEmail, options.apiKey with
        | some e, some k => ⟨none, some e, some k⟩
        | _, _ => ⟨none, none, none⟩
    .ok ⟨headers, options.timeout * 60, options.maxRetries⟩

/-! ## Transport (config.ts, fetch-based doRequest) -/

/-- The failure doRequest throws once the while loop is exhausted. -/
inductive ReqError where
  | RequestExhausted
  deriving DecidableEq

/-- The doRequest retry loop, starting at attempt number `currentTry` with
`fuel` iterations left (the loop runs while currentTry <= maxRetries, so
fuel = maxRetries - currentTry + 1). `attempts k` is what attempt number k
yields: some payload when fetch returns a success response with that parsed
JSON body, none when fetch throws or the status is not ok (both land in the
same catch block, which sleeps RETRY_DELAY, increments currentTry and
continues). The value is (outcome, number of fetch calls, number of
inter-attempt delays). -/
def doRequestAux {α : Type} (attempts : Nat → Option α) (currentTry : Nat) :
    Nat → Except ReqError α × Nat × Nat
  | 0 => (.error .RequestExhausted, 0, 0)
  | fuel + 1 =>
    match attempts currentTry with
    | some payload => (.ok payload, 1, 0)
    | none =>
      ((doRequestAux attempts (currentTry + 1) fuel).1,
        (doRequestAux attempts (currentTry + 1) fuel).2.1 + 1,
        (doRequestAux attempts (currentTry + 1) fuel).2.2 + 1)

/-- doRequest: let currentTry = 1; while (currentTry <= this.maxRetries) … ;
throw after the loop. -/
def doRequest {α : Type} (attempts : Nat → Option α) (maxRetries : Nat) :
    Except ReqError α × Nat × Nat :=
  doRequestAux attempts 1 maxRetries

/-! ## Zone resolution (config.ts getZones) -/

/-- The failure getZones throws when no exact match exists. -/
inductive ZoneError where
  | ZoneNotFound
  deriving DecidableEq

/-- zone.name.toLowerCase() === name.toLowerCase(). -/
def nameMatches (zoneName queried : String) : Bool :=
  zoneName.toLower == queried.toLower

/-- The selection getZones performs on the name-filtered zone list the API
returned: find the first exact case-insensitive match; throw ZoneNotFound
when there is none; warn (the Bool component) when the list holds more than
one zone; return the exact match. -/
def getZonesSelect (zones : List Zone) (name : String) :
    Except ZoneError Zone × Bool :=
  match zones.find? (fun zone => nameMatches zone.name name) with
  | none => (.error .ZoneNotFound, false)
  | some exactMatch => (.ok exactMatch, decide (zones.length > 1))

/-! ## Record update body (config.ts updateDnsRecord) -/

/-- The data updateEntry passes to updateDnsRecord. -/
structure RecordData where
  ip : String
  name : String
  ttl : Nat
  proxied : Bool
  deriving DecidableEq

/-- The JSON body updateDnsRecord PUTs to the dns_records endpoint. -/
structure RequestBody where
  comment : String
  content : String
  type : String
  name : String
  ttl : Nat
  proxied : Bool
  deriving DecidableEq

/-- recData.ip.includes(":"): for the one-character needle ":" substring
containment is exactly membership of the colon among the string's
characters. -/
def includesColon (s : String) : Bool :=
  s.data.contains ':'

/-- The body built by updateDnsRecord; `now` stands for
new Date().toISOString(). The record type is derived from the content:
AAAA when the IP string contains a colon, A otherwise. -/
def updateDnsRecordBody (now : String) (recData : RecordData) : RequestBody :=
  { comment := ("Last updated at ") ++ now ++ (" by JSflare")
    content := recData.ip
    type := if includesColon recData.ip then ("AAAA") else ("A")
    name := recData.name
    ttl := recData.ttl
    proxied := recData.proxied }

/-! ## Update orchestrator (src/unnamed/part_001 updateEntry) -/

/-- SUPPORTED_RECORD_TYPES = [ "A", "AAAA" ]. -/
def SUPPORTED_RECORD_TYPES : List String := ["A", "AAAA"]

/-- The record-selection predicate of updateEntry:
rec.type != null && SUPPORTED_RECORD_TYPES.includes(rec.type). -/
def isSupportedType : Option String → Bool
  | some t => SUPPORTED_RECORD_TYPES.contains t
  | none => false

/-- The .find over the fetched record list. -/
def findRecord (records : List DnsRecord) : Option DnsRecord :=
  records.find? (fun rec => isSupportedType rec.type)

/-- One updateDnsRecord invocation: the arguments updateEntry passes. -/
structure UpdateCall where
  zoneId : String
  recordId : String
  ip : String
  name : String
  proxied : Bool
  ttl : Nat
  deriving DecidableEq

/-- The successful outcomes of updateEntry: early return on no record found,
early return when the record is already up to date, or a completed update. -/
inductive UpdateResult where
  | skippedNoRecord
  | upToDate
  | updated (call : UpdateCall)
  deriving DecidableEq

/-- The failures updateEntry or its zone-resolution step propagate. -/
inductive UpdateError where
  | noContent
  | zoneFailure (msg : String)
  deriving DecidableEq

/-- Console log lines emitted on a path. -/
inductive LogLevel where
  | warn
  | info
  deriving DecidableEq

/-- The outcome of one updateEntry invocation plus its console log lines. -/
structure EntryRun where
  result : Except UpdateError UpdateResult
  logs : List LogLevel

/-- updateEntry after zone resolution: given the resolved zone, the record
list getDnsRecords returned for (zone.id, item.record), the awaited public
IP and the task. No record of a supported type: console.warn and return.
Record without content: throw. Content equal to the IP: console.info
(already up-to-date) and return. Otherwise: one updateDnsRecord call with
the new IP, the record's name, and the task's proxied and ttl, then
console.info (updated). -/
def updateEntry (zone : Zone) (records : List DnsRecord) (ip : String)
    (item : Item) : EntryRun :=
  match findRecord records with
  | none => ⟨.ok .skippedNoRecord, [.warn]⟩
  | some record =>
    match record.content with
    | none => ⟨.error .noContent, []⟩
    | some content =>
      if content = ip then
        ⟨.ok .upToDate, [.info]⟩
      else
        ⟨.ok (.updated ⟨zone.id, record.id, ip, record.name, item.proxied, item.ttl⟩),
          [.info]⟩

/-- The updateDnsRecord invocations an outcome performed. -/
def writesOf : Except UpdateError UpdateResult → List UpdateCall
  | .ok (.updated call) => [call]
  | _ => []

/-! ## Fan-out runner (src/unnamed/part_001 main) -/

/-- The provider responses one task's run observes: the outcome of its
getZones call and the record list its getDnsRecords call returns. -/
structure TaskEnv where
  zoneResult : Except String Zone
  records : List DnsRecord

/-- One full task: a zone-resolution failure rejects the task's promise
unchanged; otherwise updateEntry proceeds. -/
def updateOne (env : TaskEnv) (ip : String) (item : Item) : EntryRun :=
  match env.zoneResult with
  | .error msg => ⟨.error (.zoneFailure msg), []⟩
  | .ok zone => updateEntry zone env.records ip item

/-- Whether a settled task rejected. -/
def isFailure (r : EntryRun) : Bool :=
  match r.result with
  | .error _ => true
  | .ok _ => false

/-- main's fan-out: Promise.allSettled(items.map(item => updateEntry(…))) —
every task runs and every settled outcome is kept, in task order. -/
def runAll (ip : String) (tasks : List (Item × TaskEnv)) : List EntryRun :=
  tasks.map (fun t => updateOne t.2 ip t.1)

/-- main's reporting: results.filter(rejected).forEach(console.error) —
one error line per rejected outcome. -/
def errorLines (runs : List EntryRun) : Nat :=
  (runs.filter isFailure).length

/-! ## Config validation (src/unnamed/part_002 validateConfig) -/

/-- The maxRetries check of validateConfig: rejects exactly when the value
is not a number or is negative, so every non-negative integer passes. -/
def maxRetriesAccepted (maxRetries : Int) : Bool :=
  !(decide (maxRetries < 0))

/-! ## Helper lemmas -/

/-- find? only looks at the predicate's values on the list's members. -/
theorem find?_congr_of_mem {α : Type} (l : List α) (p q : α → Bool)
    (h : ∀ x ∈ l, p x = q x) : l.find? p = l.find? q := by
  induction l with
  | nil => rfl
  | cons a t ih =>
    simp only [List.find?]
    rw [h a (List.mem_cons_self a t)]
    cases hq : q a with
    | true => rfl
    | false => exact ih (fun x hx => h x (List.mem_cons_of_mem a hx))

/-- A successful attempt number k ends the doRequest loop with
k - start + 1 calls and k - start delays. -/
theorem doRequestAux_success {α : Type} (attempts : Nat → Option α) (payload : α) :
    ∀ (fuel start k : Nat), start ≤ k → k < start + fuel →
      attempts k = some payload →
      (∀ j, start ≤ j → j < k → attempts j = none) →
      doRequestAux attempts start fuel = (.ok payload, k - start + 1, k - start)
  | 0, start, k, hsk, hlt, _, _ => by omega
  | fuel + 1, start, k, hsk, hlt, hk, hnone => by
    by_cases hstart : k = start
    · subst hstart
      simp [doRequestAux, hk]
    · have h1 : attempts start = none := hnone start le_rfl (by omega)
      have ih := doRequestAux_success attempts payload fuel (start + 1) k
        (by omega) (by omega) hk (fun j hj1 hj2 => hnone j (by omega) hj2)
      simp only [doRequestAux, h1, ih]
      refine Prod.ext rfl (Prod.ext ?_ ?_) <;> simp <;> omega

/-- When every attempt in the window fails, doRequest exhausts the loop:
fuel calls, fuel delays, then the throw. -/
theorem doRequestAux_exhaust {α : Type} (attempts : Nat → Option α) :
    ∀ (fuel start : Nat),
      (∀ j, start ≤ j → j < start + fuel → attempts j = none) →
      doRequestAux attempts start fuel = (.error .RequestExhausted, fuel, fuel)
  | 0, start, _ => rfl
  | fuel + 1, start, h => by
    have h1 : attempts start = none := h start le_rfl (by omega)
    have ih := doRequestAux_exhaust attempts fuel (start + 1)
      (fun j hj1 hj2 => h j (by omega) (by omega))
    simp only [doRequestAux, h1, ih]

/-- verifyOptions is true exactly when a non-empty token or a complete
non-empty email+key pair is present. -/
theorem verifyOptions_iff (options : CloudflareOptions) :
    verifyOptions options = true ↔
      ((∃ t, options.apiToken = some t ∧ 0 < t.length)
        ∨ (∃ e k, options.apiEmail = some e ∧ options.apiKey = some k
            ∧ 0 < e.length ∧ 0 < k.length)) := by
  obtain ⟨tok, email, key, m, t⟩ := options
  cases tok <;> cases email <;> cases key <;>
    simp [verifyOptions, and_comm, and_assoc, and_left_comm]

/-- An updated outcome pins the update call's fields: the new IP, the
record's name, the task's proxied and ttl. -/
theorem updateEntry_updated_call (zone : Zone) (records : List DnsRecord)
    (ip : String) (item : Item) (call : UpdateCall)
    (h : (updateEntry zone records ip item).result = .ok (.updated call)) :
    ∃ record content, findRecord records = some record
      ∧ record.content = some content ∧ content ≠ ip
      ∧ call = ⟨zone.id, record.id, ip, record.name, item.proxied, item.ttl⟩ := by
  cases hfind : findRecord records with
  | none => simp [updateEntry, hfind] at h
  | some record =>
    cases hc : record.content with
    | none => simp [updateEntry, hfind, hc] at h
    | some content =>
      by_cases hip : content = ip
      · simp [updateEntry, hfind, hc, hip] at h
      · simp only [updateEntry, hfind, hc, if_neg hip] at h
        refine ⟨record, content, rfl, hc, hip, ?_⟩
        cases h
        rfl

/-! ## Claims -/

/-- C1: per task at most one updateRecord write is performed; a write
happens only when the resolved record's content differs from the fetched
public IP under exact string equality; when the content equals the IP the
orchestrator returns the up-to-date outcome (one info log, success, no
write). -/
theorem orchestrator_write_discipline (zone : Zone) (records : List DnsRecord)
    (ip : String) (item : Item) :
    (writesOf (updateEntry zone records ip item).result).length ≤ 1
    ∧ (∀ record, findRecord records = some record → record.content = some ip →
        updateEntry zone records ip item = ⟨.ok .upToDate, [.info]⟩)
    ∧ (∀ call, (updateEntry zone records ip item).result = .ok (.updated call) →
        ∃ record content, findRecord records = some record
          ∧ record.content = some content ∧ content ≠ ip ∧ call.ip = ip) := by
  refine ⟨?_, ?_, ?_⟩
  · cases hfind : findRecord records with
    | none => simp [updateEntry, hfind, writesOf]
    | some record =>
      cases hc : record.content with
      | none => simp [updateEntry, hfind, hc, writesOf]
      | some content =>
        by_cases hip : content = ip
        · simp [updateEntry, hfind, hc, hip, writesOf]
        · simp [updateEntry, hfind, hc, hip, writesOf]
  · intro record hfind hcontent
    simp [updateEntry, hfind, hcontent]
  · intro call h
    obtain ⟨record, content, hfind, hc, hip, hcall⟩ :=
      updateEntry_updated_call zone records ip item call h
    exact ⟨record, content, hfind, hc, hip, by rw [hcall]⟩

/-- C2: with maxRetries = n >= 1, doRequest tries up to n attempts: when
attempt k <= n is the first to succeed it returns that payload after exactly
k calls and k - 1 inter-attempt delays; when all n attempts fail it throws
RequestExhausted after exactly n attempts. -/
theorem transport_retry_contract {α : Type} (attempts : Nat → Option α)
    (n : Nat) (hn : 1 ≤ n) :
    (∀ k payload, 1 ≤ k → k ≤ n → attempts k = some payload →
      (∀ j, 1 ≤ j → j < k → attempts j = none) →
      doRequest attempts n = (.ok payload, k, k - 1))
    ∧ ((∀ j, 1 ≤ j → j ≤ n → attempts j = none) →
      doRequest attempts n = (.error .RequestExhausted, n, n)) := by
  constructor
  · intro k payload hk1 hkn hk hnone
    have h := doRequestAux_success attempts payload n 1 k hk1 (by omega) hk
      (fun j hj1 hj2 => hnone j hj1 hj2)
    have hsub : k - 1 + 1 = k := by omega
    rw [doRequest, h, hsub]
  · intro hall
    exact doRequestAux_exhaust attempts n 1 (fun j hj1 hj2 => hall j hj1 (by omega))

/-- Witness for C2 at maxRetries = 3: attempts 1 and 2 fail, attempt 3
succeeds with payload 42 — three calls, two delays; and when every attempt
fails the loop exhausts after three attempts. -/
theorem transport_retry_contract_witness :
    doRequest (fun k => if k = 3 then some 42 else none) 3 = (.ok 42, 3, 2)
    ∧ doRequest (fun _ => (none : Option Nat)) 3
        = (.error .RequestExhausted, 3, 3) := by
  constructor
  · exact (transport_retry_contract (fun k => if k = 3 then some 42 else none) 3
      (by decide)).1 3 42 (by decide) (by decide) (by decide)
      (by
        intro j hj1 hj2
        have hj : j = 1 ∨ j = 2 := by omega
        rcases hj with hj | hj <;> subst hj <;> rfl)
  · exact (transport_retry_contract (fun _ => (none : Option Nat)) 3
      (by decide)).2 (fun _ _ _ => rfl)

/-- C3: over a record list whose entries all carry the task's recordName
(the list getDnsRecords fetched name-filtered), the selected record is the
first one matching the exact recordName with type A or AAAA; when no record
of a supported type exists the task warns and completes as a
success-with-no-change skip, not a failure. -/
theorem record_selection_and_skip (zone : Zone) (records : List DnsRecord)
    (ip : String) (item : Item)
    (hfiltered : ∀ record ∈ records, record.name = item.record) :
    findRecord records
      = records.find? (fun record =>
          record.name == item.record && isSupportedType record.type)
    ∧ ((∀ record ∈ records, isSupportedType record.type = false) →
        updateEntry zone records ip item = ⟨.ok .skippedNoRecord, [.warn]⟩) := by
  constructor
  · exact find?_congr_of_mem records _ _ (fun x hx => by
      simp [isSupportedType, hfiltered x hx])
  · intro hall
    have hfind : findRecord records = none :=
      List.find?_eq_none.mpr (fun x hx => by simp [hall x hx])
    simp [updateEntry, hfind]

/-- Witness for C3: a list holding one CNAME record for the requested name
yields the warn-and-skip outcome. -/
theorem record_selection_and_skip_witness :
    updateEntry ⟨("zid"), ("example.com")⟩
      [⟨("rid1"), ("home.example.com"), some ("CNAME"), some ("198.51.100.2"), 300, false⟩]
      ("203.0.113.7") ⟨("example.com"), ("home.example.com"), 1, false⟩
      = ⟨.ok .skippedNoRecord, [.warn]⟩ := by
  exact (record_selection_and_skip ⟨("zid"), ("example.com")⟩
    [⟨("rid1"), ("home.example.com"), some ("CNAME"), some ("198.51.100.2"), 300, false⟩]
    ("203.0.113.7") ⟨("example.com"), ("home.example.com"), 1, false⟩
    (by intro record hr; rw [List.mem_singleton.mp hr])).2
    (by intro record hr; rw [List.mem_singleton.mp hr]; rfl)

/-- C4: zone resolution throws ZoneNotFound exactly when the name-filtered
zone list holds no case-insensitive exact match; otherwise it returns the
first exact match; when at least two zones in the list match the name it
warns and still succeeds with the first exact match. -/
theorem resolveZone_contract (zones : List Zone) (name : String) :
    ((getZonesSelect zones name).1 = .error .ZoneNotFound ↔
      ∀ zone ∈ zones, nameMatches zone.name name = false)
    ∧ (∀ zone, zones.find? (fun z => nameMatches z.name name) = some zone →
        getZonesSelect zones name = (.ok zone, decide (zones.length > 1)))
    ∧ (2 ≤ (zones.filter (fun z => nameMatches z.name name)).length →
        (getZonesSelect zones name).2 = true
        ∧ ∃ zone, zones.find? (fun z => nameMatches z.name name) = some zone
            ∧ (getZonesSelect zones name).1 = .ok zone) := by
  refine ⟨?_, ?_, ?_⟩
  · cases hfind : zones.find? (fun z => nameMatches z.name name) with
    | none =>
      simp only [getZonesSelect, hfind]
      constructor
      · intro _ zone hz
        have := List.find?_eq_none.mp hfind zone hz
        simpa using this
      · intro _
        trivial
    | some z =>
      simp only [getZonesSelect, hfind]
      constructor
      · intro h
        cases h
      · intro hall
        have hz := List.find?_some hfind
        have hmem := List.mem_of_find?_eq_some hfind
        rw [hall z hmem] at hz
        cases hz
  · intro zone hfind
    simp [getZonesSelect, hfind]
  · intro h2
    have hne : zones.filter (fun z => nameMatches z.name name) ≠ [] := by
      intro hnil
      rw [hnil] at h2
      simp at h2
    obtain ⟨z, hz⟩ := List.exists_mem_of_ne_nil _ hne
    obtain ⟨hzmem, hzp⟩ := List.mem_filter.mp hz
    have hsome : (zones.find? (fun z => nameMatches z.name name)).isSome :=
      List.find?_isSome.mpr ⟨z, hzmem, hzp⟩
    obtain ⟨zone, hfind⟩ := Option.isSome_iff_exists.mp hsome
    have hlen : 2 ≤ zones.length :=
      le_trans h2 (List.length_filter_le _ zones)
    refine ⟨?_, zone, hfind, ?_⟩
    · simp only [getZonesSelect, hfind, decide_eq_true_eq]
      omega
    · simp [getZonesSelect, hfind]

/-- C5: every update write's body carries type AAAA when the new content
contains a colon and A otherwise, the task's configured ttl and proxied
values, and an audit comment embedding the timestamp. -/
theorem update_body_contract (now : String) (zone : Zone)
    (records : List DnsRecord) (ip : String) (item : Item) (call : UpdateCall)
    (h : (updateEntry zone records ip item).result = .ok (.updated call)) :
    (updateDnsRecordBody now ⟨call.ip, call.name, call.ttl, call.proxied⟩).type
        = (if includesColon ip then ("AAAA") else ("A"))
    ∧ (updateDnsRecordBody now ⟨call.ip, call.name, call.ttl, call.proxied⟩).ttl
        = item.ttl
    ∧ (updateDnsRecordBody now ⟨call.ip, call.name, call.ttl, call.proxied⟩).proxied
        = item.proxied
    ∧ (updateDnsRecordBody now ⟨call.ip, call.name, call.ttl, call.proxied⟩).content
        = ip
    ∧ ∃ pre post,
        (updateDnsRecordBody now ⟨call.ip, call.name, call.ttl, call.proxied⟩).comment
          = pre ++ now ++ post := by
  obtain ⟨record, content, hfind, hc, hip, hcall⟩ :=
    updateEntry_updated_call zone records ip item call h
  subst hcall
  exact ⟨rfl, rfl, rfl, rfl, ("Last updated at "), (" by JSflare"), rfl⟩

/-- Witness for C5: a concrete run whose record holds a stale IPv4 address
produces an update body with type A, the task's ttl 1 and proxied false,
the fresh content, and the timestamped comment. -/
theorem update_body_contract_witness :
    (updateDnsRecordBody ("2026-10-11T00:00:00.000Z")
        ⟨("203.0.113.7"), ("home.example.com"), 1, false⟩).type = ("A")
    ∧ (updateDnsRecordBody ("2026-10-11T00:00:00.000Z")
        ⟨("203.0.113.7"), ("home.example.com"), 1, false⟩).ttl = 1
    ∧ (updateDnsRecordBody ("2026-10-11T00:00:00.000Z")
        ⟨("203.0.113.7"), ("home.example.com"), 1, false⟩).proxied = false
    ∧ (updateDnsRecordBody ("2026-10-11T00:00:00.000Z")
        ⟨("203.0.113.7"), ("home.example.com"), 1, false⟩).content = ("203.0.113.7")
    ∧ ∃ pre post,
        (updateDnsRecordBody ("2026-10-11T00:00:00.000Z")
          ⟨("203.0.113.7"), ("home.example.com"), 1, false⟩).comment
          = pre ++ ("2026-10-11T00:00:00.000Z") ++ post := by
  have h := update_body_contract ("2026-10-11T00:00:00.000Z")
    ⟨("zid"), ("example.com")⟩
    [⟨("rid1"), ("home.example.com"), some ("A"), some ("198.51.100.2"), 300, true⟩]
    ("203.0.113.7") ⟨("example.com"), ("home.example.com"), 1, false⟩
    ⟨("zid"), ("rid1"), ("203.0.113.7"), ("home.example.com"), false, 1⟩
    (by rfl)
  have hcolon : includesColon ("203.0.113.7") = false := rfl
  simpa [hcolon] using h

/-- C6: the fan-out runs updateOne for every task and keeps every outcome in
order; each settled outcome depends only on its own task and environment, so
one task's failure neither cancels nor blocks another; after all settle the
number of error lines equals the number of failed tasks. -/
theorem fanout_isolation (ip : String) (tasks : List (Item × TaskEnv)) :
    (runAll ip tasks).length = tasks.length
    ∧ (∀ i : Nat, (runAll ip tasks)[i]?
        = (tasks[i]?).map (fun t => updateOne t.2 ip t.1))
    ∧ errorLines (runAll ip tasks)
        = (tasks.filter (fun t => isFailure (updateOne t.2 ip t.1))).length := by
  refine ⟨?_, ?_, ?_⟩
  · simp [runAll]
  · intro i
    simp [runAll]
  · simp only [errorLines, runAll, List.filter_map, List.length_map]
    rfl

/-- C7: the claim says every attempt is timed out at the configured value
interpreted as seconds. The constructor instead stores
timeoutMs = timeout * 60: for timeout = 30 this is 1800, which is neither
30000 (30 seconds in milliseconds) nor 30 — and the fetch-based doRequest
never applies this field to an attempt at all. -/
theorem timeout_units_bug :
    ∃ client, mkClient ⟨some ("token"), none, none, 3, 30⟩ = .ok client
      ∧ client.timeoutMs = 30 * 60
      ∧ client.timeoutMs ≠ 30000
      ∧ client.timeoutMs ≠ 30 := by
  exact ⟨_, rfl, rfl, by decide, by decide⟩

/-- C8: construction fails exactly when the options carry neither a
non-empty token nor a complete non-empty email+key pair. -/
theorem construction_credential_contract (options : CloudflareOptions) :
    (∃ msg, mkClient options = .error msg) ↔
      ¬((∃ t, options.apiToken = some t ∧ 0 < t.length)
        ∨ (∃ e k, options.apiEmail = some e ∧ options.apiKey = some k
            ∧ 0 < e.length ∧ 0 < k.length)) := by
  rw [← verifyOptions_iff]
  constructor
  · intro h hv
    obtain ⟨msg, hmsg⟩ := h
    rw [mkClient, if_neg (by rw [hv]; intro hfalse; cases hfalse)] at hmsg
    cases hmsg
  · intro hv
    have hfalse : verifyOptions options = false := by
      cases h : verifyOptions options with
      | true => exact absurd h hv
      | false => rfl
    exact ⟨_, by rw [mkClient, if_pos hfalse]⟩

/-- C9: options carrying an empty-string token plus a non-empty email and
key pass validation (via the email/key branch), yet the constructor sets the
Authorization header from the empty token ("Bearer " followed by nothing)
and omits the X-Auth headers, since header selection only tests whether the
token field is present. -/
theorem empty_token_header_confusion (e k : String)
    (he : 0 < e.length) (hk : 0 < k.length) (m t : Nat) :
    mkClient ⟨some (""), some e, some k, m, t⟩
      = .ok ⟨⟨some ("Bearer "), none, none⟩, t * 60, m⟩ := by
  have hv : verifyOptions ⟨some (""), some e, some k, m, t⟩ = true := by
    simp [verifyOptions, he, hk]
  rw [mkClient, if_neg (by rw [hv]; intro hfalse; cases hfalse)]
  rfl

/-- Witness for C9: a concrete empty token with non-empty email and key
constructs successfully with the degenerate Bearer header and no X-Auth
headers. -/
theorem empty_token_header_confusion_witness :
    mkClient ⟨some (""), some ("user@example.com"), some ("secret"), 3, 30⟩
      = .ok ⟨⟨some ("Bearer "), none, none⟩, 30 * 60, 3⟩ := by
  exact empty_token_header_confusion ("user@example.com") ("secret")
    (by decide) (by decide) 3 30

/-- C10: the config validator accepts maxRetries = 0, and a transport built
with maxRetries = 0 fails every call with RequestExhausted after zero fetch
calls and zero delays — the while loop body never runs. -/
theorem zero_maxRetries_exhausts_immediately :
    maxRetriesAccepted 0 = true
    ∧ ∀ (attempts : Nat → Option Nat),
        doRequest attempts 0 = (.error .RequestExhausted, 0, 0) := by
  exact ⟨rfl, fun _ => rfl⟩

end JSflare
